import Mathlib

/-!
Verification of the per-frame combat core of the STARK combat simulator
(the rail-shooter in src/unnamed/part_000).

Conventions of the shallow embedding:
- 3D geometry is over ℚ.  The source compares Euclidean distances
  (THREE.Vector3.distanceTo) against nonnegative bounds; this is embedded as
  the equivalent comparison of the squared distance against the squared
  bound, keeping every definition executable over ℚ.
- The scalar game-state fields (health, score, wave, beamCharges) only ever
  hold integers in the source, so they are embedded as ℤ.
- Side effects that leave the simulation core (sounds, transient visuals,
  score submission, destruction notifications) are collected in an explicit
  event list.
- The nearest raycast intersection used by the repulsor is computed by the
  three.js Raycaster, an external library; it enters the model as an oracle
  returning the index of the nearest intersected live enemy, or none.
-/

namespace StarkSim

/-- Status field of the GameState record. -/
inductive Status where
  | menu
  | playing
  | gameover
deriving DecidableEq

/-- GameState record of the source.  The enemies array field of the React
state is never read by the combat logic (live enemies are kept in the
mutable enemiesRef), so the live enemy list is tracked separately below,
exactly as the code does. -/
structure GameState where
  status : Status
  health : ℤ
  score : ℤ
  wave : ℤ
  beamCharges : ℤ
deriving DecidableEq

/-- A 3D vector with exact rational coordinates. -/
structure Vec3 where
  x : ℚ
  y : ℚ
  z : ℚ
deriving DecidableEq

/-- Squared Euclidean distance.  The source expression
a.distanceTo b < r (with r ≥ 0) is embedded as distSq a b < r * r. -/
def distSq (a b : Vec3) : ℚ :=
  let dx := a.x - b.x
  let dy := a.y - b.y
  let dz := a.z - b.z
  dx * dx + dy * dy + dz * dz

/-- An enemy record.  The source id is a random string; it is embedded as a
natural number.  The mesh and hitbox drawables are external handles; the
position below is the shared position of both (the code copies the mesh
position onto the hitbox every tick). -/
structure Enemy where
  id : ℕ
  pos : Vec3
  hp : ℤ
  maxHp : ℤ
  wobbleOffset : ℚ
  speedOffset : ℚ
  velocity : Vec3
deriving DecidableEq

/-- Constant REPULSOR_COOLDOWN_MS of the source. -/
def REPULSOR_COOLDOWN_MS : ℤ := 200

/-- Constant MAX_BEAM_CHARGES of the source. -/
def MAX_BEAM_CHARGES : ℤ := 5

/-- Player box half extents and enemy hit radius used by the collision
check inside the animate loop (hitRadius, pWidth, pHeight, pDepth). -/
def hitRadius : ℚ := 1.5

/-- Player half width used by the collision check. -/
def pWidth : ℚ := 0.5

/-- Player height used by the collision check. -/
def pHeight : ℚ := 1.8

/-- Player half depth used by the collision check. -/
def pDepth : ℚ := 0.5

/-- Discrete side effects emitted by the combat core: sound triggers
(playSound), transient visuals, floating damage numbers, enemy destruction
and the leaderboard submission. -/
inductive Event where
  | soundShoot
  | soundHit
  | soundBeam
  | soundLowHp
  | visualBeam
  | explosion
  | damageText (amount : ℤ) (isCrit : Bool)
  | destroyed (id : ℕ) (points : ℤ)
  | scoreSubmit (finalScore : ℤ)
deriving DecidableEq

/-- Recogniser for destruction events (any enemy, any point value). -/
def isDestroyEvent : Event → Bool
  | Event.destroyed _ _ => true
  | _ => false

/-- Recogniser for score submission events. -/
def isScoreSubmitEvent : Event → Bool
  | Event.scoreSubmit _ => true
  | _ => false

/-- Function destroyEnemy of the source: explosion at the enemy, removal of
its mesh and hitbox from the scene (here: removal from the live list), and
a score award through setGameState.  The source indexes the array without a
bounds check; call sites always pass a valid index, and an out-of-range
index is a no-op here. -/
def destroyEnemy (st : GameState) (enemies : List Enemy) (index : ℕ)
    (points : ℤ) : GameState × List Enemy × List Event :=
  match enemies[index]? with
  | none => (st, enemies, [])
  | some enemy =>
      ({ st with score := st.score + points }, enemies.eraseIdx index,
        [Event.explosion, Event.destroyed enemy.id points])

/-- The hit test of triggerUnibeam for a single enemy: the source computes
enemy.mesh.position.distanceTo(camera.position) and compares it with the
literal 80 (the declared constant BEAM_AOE_RADIUS = 3.5 is not used by this
code path). -/
def inBeamRadius (cam : Vec3) (e : Enemy) : Bool :=
  decide (distSq e.pos cam < 80 * 80)

/-- Result of a unibeam activation. -/
structure UnibeamResult where
  state : GameState
  enemies : List Enemy
  events : List Event
deriving DecidableEq

/-- Function triggerUnibeam of the source.  The aim argument is the
smoothed cursor sample; the source uses it only to orient the rendered beam
cylinder and never in the hit test, which is centered on the camera
position cam.  With no charge the updater returns prev unchanged before any
effect.  Otherwise the in-radius enemies are collected and spliced out
(collecting indices and splicing in descending order equals a filter), each
with an explosion and a crit damage number of 9999, and the updater
returns the state with one charge consumed and 50 points per destroyed
enemy. -/
def triggerUnibeam (aim : ℚ × ℚ) (cam : Vec3) (st : GameState)
    (enemies : List Enemy) : UnibeamResult :=
  if st.beamCharges ≤ 0 then ⟨st, enemies, []⟩
  else
    let hitList := enemies.filter (inBeamRadius cam)
    let survivors := enemies.filter (fun e => ! inBeamRadius cam e)
    ⟨{ st with
        beamCharges := st.beamCharges - 1,
        score := st.score + (hitList.length : ℤ) * 50 },
      survivors,
      Event.soundBeam :: Event.visualBeam ::
        hitList.flatMap (fun e =>
          [Event.explosion, Event.damageText 9999 true,
            Event.destroyed e.id 50])⟩

/-- Result of a repulsor activation. -/
structure RepulsorResult where
  state : GameState
  enemies : List Enemy
  lastShotTime : ℤ
  events : List Event
deriving DecidableEq

/-- Function fireRepulsor of the source.  Within the cooldown window the
function returns before any effect.  Otherwise lastShotTime is set to now,
the shot sound and the transient beam visuals are emitted, and the nearest
enemy intersected by the aim ray (oracle nearestHit, standing for
raycaster.intersectObjects over the live hitboxes, first element) takes the
fixed damage dmg = 100; at hp ≤ 0 it is destroyed via destroyEnemy with 10
points. -/
def fireRepulsor (now lastShotTime : ℤ)
    (nearestHit : List Enemy → Option ℕ) (st : GameState)
    (enemies : List Enemy) : RepulsorResult :=
  if now - lastShotTime < REPULSOR_COOLDOWN_MS then
    ⟨st, enemies, lastShotTime, []⟩
  else
    match nearestHit enemies with
    | none => ⟨st, enemies, now, [Event.soundShoot, Event.visualBeam]⟩
    | some hitIndex =>
      match enemies[hitIndex]? with
      | none => ⟨st, enemies, now, [Event.soundShoot, Event.visualBeam]⟩
      | some enemy =>
          if enemy.hp - 100 ≤ 0 then
            let r := destroyEnemy st enemies hitIndex 10
            ⟨r.1, r.2.1, now,
              [Event.soundShoot, Event.visualBeam,
                Event.damageText 100 false, Event.soundHit] ++ r.2.2⟩
          else
            ⟨st, enemies.set hitIndex { enemy with hp := enemy.hp - 100 },
              now,
              [Event.soundShoot, Event.visualBeam,
                Event.damageText 100 false, Event.soundHit]⟩

/-- The setGameState updater run by the collision branch of the animate
loop.  Note that the updater inspects only prev.health: it carries no
status guard, and submitScore(prev.score) is invoked inside it whenever the
new health value is ≤ 0. -/
def applyCollisionDamage (st : GameState) : GameState × List Event :=
  let newHp := st.health - 20
  let lowHpEvents :=
    if newHp ≤ 20 ∧ 0 < newHp then [Event.soundLowHp] else []
  if newHp ≤ 0 then
    ({ st with health := 0, status := Status.gameover },
      lowHpEvents ++ [Event.scoreSubmit st.score])
  else
    ({ st with health := newHp }, lowHpEvents)

/-- The per-enemy collision test of the animate loop: an axis-aligned box
check of the enemy position ePos against the player column at (pX, pZ),
with strict comparisons on every axis. -/
def collides (pX pZ : ℚ) (ePos : Vec3) : Bool :=
  decide (|ePos.x - pX| < pWidth + hitRadius) &&
    decide (|ePos.z - pZ| < pDepth + hitRadius) &&
    (decide (ePos.y < pHeight + hitRadius) && decide (ePos.y > -hitRadius))

/-- The collision / despawn branch of the per-enemy loop in animate, for
the enemy at index i (position already advanced by the steering step): on
collision an explosion is spawned at the camera, the enemy is destroyed
with zero points, and the collision-damage updater runs; otherwise an enemy
more than 20 units behind the camera despawns silently. -/
def enemyCollisionStep (cam : Vec3) (st : GameState) (enemies : List Enemy)
    (i : ℕ) : GameState × List Enemy × List Event :=
  match enemies[i]? with
  | none => (st, enemies, [])
  | some enemy =>
    if collides cam.x cam.z enemy.pos then
      let r := destroyEnemy st enemies i 0
      let c := applyCollisionDamage r.1
      (c.1, r.2.1, Event.explosion :: r.2.2 ++ c.2)
    else if enemy.pos.z > cam.z + 20 then
      (st, enemies.eraseIdx i, [])
    else
      (st, enemies, [])

/-- The setGameState updater of destroyEnemy in isolation (score award). -/
def applyScore (points : ℤ) (st : GameState) : GameState :=
  { st with score := st.score + points }

/-- The unibeam regeneration updater of the animate loop (runs while
playing and below MAX_BEAM_CHARGES, once the regen accumulator reaches
BEAM_REGEN_MS). -/
def applyRegen (st : GameState) : GameState :=
  { st with beamCharges := min (st.beamCharges + 1) MAX_BEAM_CHARGES }

/-- The wave-timer updater of the animate loop (runs while playing when the
remaining wave time reaches zero). -/
def applyWaveAdvance (st : GameState) : GameState :=
  { st with wave := st.wave + 1 }

/-- The state installed by the startGame handler. -/
def startGame : GameState :=
  { status := Status.playing, health := 100, score := 0, wave := 1,
    beamCharges := 5 }

/-- The initial React state of the App component. -/
def initialState : GameState :=
  { status := Status.menu, health := 100, score := 0, wave := 1,
    beamCharges := 5 }

/-- One scalar-state-updating operation of the source.  Environment inputs
(which enemy collides, what the unibeam hits, when the recognised gesture
arrives) are existentially chosen by the environment; the startGame handler
is reachable only from the menu and game-over screens, where its button is
rendered. -/
inductive Step : GameState → GameState → Prop where
  | start (s : GameState) :
      s.status ≠ Status.playing → Step s startGame
  | destroy (s : GameState) (points : ℤ) :
      points = 0 ∨ points = 10 → Step s (applyScore points s)
  | unibeam (s : GameState) (aim : ℚ × ℚ) (cam : Vec3)
      (enemies : List Enemy) :
      Step s (triggerUnibeam aim cam s enemies).state
  | collide (s : GameState) : Step s (applyCollisionDamage s).1
  | regen (s : GameState) :
      s.status = Status.playing → s.beamCharges < MAX_BEAM_CHARGES →
      Step s (applyRegen s)
  | wave (s : GameState) :
      s.status = Status.playing → Step s (applyWaveAdvance s)

/-- States reachable from the initial state by the operations above. -/
def Reachable (s : GameState) : Prop :=
  Relation.ReflTransGen Step initialState s

/-- The scalar bounds of section 8 of the specification. -/
def StateBounds (s : GameState) : Prop :=
  0 ≤ s.health ∧ s.health ≤ 100 ∧ 0 ≤ s.beamCharges ∧
    s.beamCharges ≤ MAX_BEAM_CHARGES ∧ 0 ≤ s.score

/-- THREE.MathUtils.lerp. -/
def lerp (x y t : ℚ) : ℚ := x + (y - x) * t

/-- The input-smoothing step at the top of the animate loop.  dt is the
frame delta computed by animate; the smoothing does not read it. -/
def smoothCursorTick (dt : ℚ) (cursor target : ℚ × ℚ) : ℚ × ℚ :=
  (lerp cursor.1 target.1 0.15, lerp cursor.2 target.2 0.15)

/-- Iterated application of the collision-damage updater (state part). -/
def collideN : ℕ → GameState → GameState
  | 0, s => s
  | n + 1, s => collideN n (applyCollisionDamage s).1

/-! Witness fixtures: a camera position and three concrete enemies, two
inside and one outside the 80-unit unibeam radius. -/

/-- Camera position used by the witnesses. -/
def wCam : Vec3 := ⟨0, 1.5, 0⟩

/-- An enemy 10 units from the camera. -/
def wNear : Enemy := ⟨1, ⟨0, 1.5, -10⟩, 100, 100, 0, 0, ⟨0, 0, 0⟩⟩

/-- A second in-radius enemy, about 20 units out. -/
def wNear2 : Enemy := ⟨2, ⟨3, 1.5, -20⟩, 100, 100, 0, 0, ⟨0, 0, 0⟩⟩

/-- An enemy 100 units from the camera, outside the 80-unit radius. -/
def wFar : Enemy := ⟨3, ⟨0, 1.5, -100⟩, 100, 100, 0, 0, ⟨0, 0, 0⟩⟩

/-- Claim C1: with a charge available, the unibeam hit test is
player-centered: every enemy strictly within 80 world units of the camera
is destroyed in the same activation (leaving the live set, with a destroy
event worth 50 points each, the score growing by 50 per destroyed enemy),
every enemy at squared distance at least 80 squared stays in the live set
with all fields unchanged, and the outcome does not depend on the aim
sample. -/
theorem unibeam_player_centered_area (aim : ℚ × ℚ) (cam : Vec3)
    (st : GameState) (enemies : List Enemy) (h : 0 < st.beamCharges) :
    (triggerUnibeam aim cam st enemies).enemies
        = enemies.filter (fun e => ! inBeamRadius cam e) ∧
    (∀ e ∈ enemies, distSq e.pos cam < 80 * 80 →
        e ∉ (triggerUnibeam aim cam st enemies).enemies ∧
        Event.destroyed e.id 50 ∈ (triggerUnibeam aim cam st enemies).events) ∧
    (∀ e ∈ enemies, ¬ distSq e.pos cam < 80 * 80 →
        e ∈ (triggerUnibeam aim cam st enemies).enemies) ∧
    (triggerUnibeam aim cam st enemies).state.score
        = st.score + ((enemies.filter (inBeamRadius cam)).length : ℤ) * 50 ∧
    (∀ aim2 : ℚ × ℚ,
        triggerUnibeam aim2 cam st enemies
          = triggerUnibeam aim cam st enemies) := by
  have hne : ¬ st.beamCharges ≤ 0 := by omega
  refine ⟨?_, ?_, ?_, ?_, fun aim2 => rfl⟩
  · simp [triggerUnibeam, hne]
  · intro e he hd
    constructor
    · simp [triggerUnibeam, hne, List.mem_filter, inBeamRadius, hd]
    · simp only [triggerUnibeam, hne, if_false, List.mem_cons,
        List.mem_flatMap]
      refine Or.inr (Or.inr ⟨e, List.mem_filter.mpr ⟨he, ?_⟩, by simp⟩)
      simp [inBeamRadius, hd]
  · intro e he hd
    simp [triggerUnibeam, hne, List.mem_filter, inBeamRadius, hd, he]
  · simp [triggerUnibeam, hne]

/-- Witness for C1 at the concrete scenario of the specification: three
charges, two enemies inside the radius and one outside; both in-radius
enemies are destroyed, the score grows by 100, the far enemy survives
untouched. -/
theorem unibeam_player_centered_area_witness :
    (0 : ℤ) < (3 : ℤ) ∧
    (triggerUnibeam (0.5, 0.5) wCam ⟨Status.playing, 100, 0, 1, 3⟩
        [wNear, wNear2, wFar]).enemies = [wFar] ∧
    (triggerUnibeam (0.5, 0.5) wCam ⟨Status.playing, 100, 0, 1, 3⟩
        [wNear, wNear2, wFar]).state.score = 100 := by
  have h := unibeam_player_centered_area (0.5, 0.5) wCam
    ⟨Status.playing, 100, 0, 1, 3⟩ [wNear, wNear2, wFar] (by norm_num)
  refine ⟨by norm_num, ?_, ?_⟩
  · rw [h.1]
    norm_num [List.filter_cons, List.filter_nil, inBeamRadius, distSq,
      wCam, wNear, wNear2, wFar]
  · rw [h.2.2.2.1]
    norm_num [List.filter_cons, List.filter_nil, inBeamRadius, distSq,
      wCam, wNear, wNear2, wFar]

/-- Claim C2: the unibeam requires a charge: with beamCharges = 0 the
activation returns the previous state unchanged with no event, and with a
charge available it consumes exactly one charge. -/
theorem unibeam_charge_gate (aim : ℚ × ℚ) (cam : Vec3) (st : GameState)
    (enemies : List Enemy) :
    (st.beamCharges = 0 →
      triggerUnibeam aim cam st enemies = ⟨st, enemies, []⟩) ∧
    (0 < st.beamCharges →
      (triggerUnibeam aim cam st enemies).state.beamCharges
        = st.beamCharges - 1) := by
  constructor
  · intro h
    simp [triggerUnibeam, h]
  · intro h
    simp [triggerUnibeam, show ¬ st.beamCharges ≤ 0 by omega]

/-- Witness for C2: firing with zero charge changes nothing; firing with
three charges leaves two. -/
theorem unibeam_charge_gate_witness :
    triggerUnibeam (0.5, 0.5) wCam ⟨Status.playing, 100, 7, 2, 0⟩ [wNear]
      = ⟨⟨Status.playing, 100, 7, 2, 0⟩, [wNear], []⟩ ∧
    (triggerUnibeam (0.5, 0.5) wCam ⟨Status.playing, 100, 7, 2, 3⟩
        [wNear]).state.beamCharges = 2 :=
  ⟨(unibeam_charge_gate (0.5, 0.5) wCam ⟨Status.playing, 100, 7, 2, 0⟩
      [wNear]).1 rfl,
   by
    rw [(unibeam_charge_gate (0.5, 0.5) wCam ⟨Status.playing, 100, 7, 2, 3⟩
      [wNear]).2 (by norm_num)]
    decide⟩

/-- Claim C10: a unibeam activation with a charge available but no enemy
strictly within 80 units still consumes exactly one charge and changes
nothing else: score, health, wave and status keep their values and the
live enemy list is unmodified. -/
theorem unibeam_miss_consumes_charge (aim : ℚ × ℚ) (cam : Vec3)
    (st : GameState) (enemies : List Enemy) (hc : 0 < st.beamCharges)
    (hmiss : ∀ e ∈ enemies, ¬ distSq e.pos cam < 80 * 80) :
    (triggerUnibeam aim cam st enemies).state.beamCharges
        = st.beamCharges - 1 ∧
    (triggerUnibeam aim cam st enemies).state.score = st.score ∧
    (triggerUnibeam aim cam st enemies).state.health = st.health ∧
    (triggerUnibeam aim cam st enemies).state.wave = st.wave ∧
    (triggerUnibeam aim cam st enemies).state.status = st.status ∧
    (triggerUnibeam aim cam st enemies).enemies = enemies := by
  have hne : ¬ st.beamCharges ≤ 0 := by omega
  have hfilter : enemies.filter (inBeamRadius cam) = [] := by
    rw [List.filter_eq_nil_iff]
    intro e he
    simp [inBeamRadius, hmiss e he]
  have hsurv : enemies.filter (fun e => ! inBeamRadius cam e) = enemies := by
    rw [List.filter_eq_self]
    intro e he
    simp [inBeamRadius, hmiss e he]
  simp [triggerUnibeam, hne, hfilter, hsurv]

/-- Witness for C10: a complete miss with five charges: one charge is
spent, score, live list and the rest of the state are untouched. -/
theorem unibeam_miss_consumes_charge_witness :
    (triggerUnibeam (0.5, 0.5) wCam ⟨Status.playing, 60, 40, 2, 5⟩
        [wFar]).state.beamCharges = 4 ∧
    (triggerUnibeam (0.5, 0.5) wCam ⟨Status.playing, 60, 40, 2, 5⟩
        [wFar]).state.score = 40 ∧
    (triggerUnibeam (0.5, 0.5) wCam ⟨Status.playing, 60, 40, 2, 5⟩
        [wFar]).enemies = [wFar] := by
  have h := unibeam_miss_consumes_charge (0.5, 0.5) wCam
    ⟨Status.playing, 60, 40, 2, 5⟩ [wFar] (by norm_num)
    (by
      intro e he
      simp only [List.mem_singleton] at he
      subst he
      norm_num [distSq, wCam, wFar])
  exact ⟨by rw [h.1]; decide, by rw [h.2.1], h.2.2.2.2.2⟩

/-- Claim C8: each tick advances the smoothed aim sample by a fixed-ratio
lerp toward the raw target with constant 0.15 applied per axis, and the
result does not depend on the frame delta dt. -/
theorem cursor_smoothing_fixed_ratio (dt : ℚ) (cursor target : ℚ × ℚ) :
    smoothCursorTick dt cursor target
      = (cursor.1 + 0.15 * (target.1 - cursor.1),
          cursor.2 + 0.15 * (target.2 - cursor.2)) ∧
    ∀ dt2 : ℚ, smoothCursorTick dt2 cursor target
        = smoothCursorTick dt cursor target := by
  refine ⟨?_, fun dt2 => rfl⟩
  simp only [smoothCursorTick, lerp, Prod.mk.injEq]
  constructor <;> ring

/-- Helper: any destruction event emitted by fireRepulsor names an enemy
of the input live list. -/
theorem fireRepulsor_destroyed_id_mem (now ls : ℤ)
    (nearestHit : List Enemy → Option ℕ) (st : GameState)
    (enemies : List Enemy) (idv : ℕ) (pts : ℤ)
    (h : Event.destroyed idv pts
      ∈ (fireRepulsor now ls nearestHit st enemies).events) :
    idv ∈ enemies.map Enemy.id := by
  unfold fireRepulsor at h
  split at h
  · simp at h
  · split at h
    · simp at h
    · split at h
      · simp at h
      · rename_i i e hget
        split at h
        · unfold destroyEnemy at h
          rw [hget] at h
          simp only [List.mem_append, List.mem_cons, List.not_mem_nil,
            or_false, Event.destroyed.injEq, reduceCtorEq, false_or] at h
          obtain ⟨h1, h2⟩ := h
          exact h1 ▸ List.mem_map_of_mem Enemy.id (List.getElem?_mem hget)
        · simp at h

/-- Helper: with pairwise distinct ids, removing the enemy at index i
removes its id from the mapped id list. -/
theorem id_not_mem_map_eraseIdx :
    ∀ (l : List Enemy) (i : ℕ) (e : Enemy), l[i]? = some e →
      (l.map Enemy.id).Nodup → e.id ∉ (l.eraseIdx i).map Enemy.id := by
  intro l
  induction l with
  | nil => intro i e h _; simp at h
  | cons a t ih =>
    intro i e hget hnd
    simp only [List.map_cons, List.nodup_cons] at hnd
    cases i with
    | zero =>
      simp only [List.getElem?_cons_zero, Option.some.injEq] at hget
      subst hget
      simpa [List.eraseIdx] using hnd.1
    | succ n =>
      simp only [List.getElem?_cons_succ] at hget
      have hmem : e ∈ t := List.getElem?_mem hget
      simp only [List.eraseIdx, List.map_cons, List.mem_cons]
      push_neg
      refine ⟨?_, ih n e hget hnd.2⟩
      intro hEq
      exact hnd.1 (hEq ▸ List.mem_map_of_mem Enemy.id hmem)

/-- Claim C4: outside the cooldown, a repulsor hit applies the fixed 100
damage to the enemy selected as the nearest intersection; an enemy at the
spawn value of 100 HP therefore dies on the first hit: it leaves the live
list, exactly 10 points are awarded, exactly one destroy event fires, and
no later shot can hit or destroy that enemy again (its id is gone from the
live list the raycast runs over). -/
theorem repulsor_one_shot_kill (now lastShot : ℤ)
    (nearestHit nh2 : List Enemy → Option ℕ) (st : GameState)
    (enemies : List Enemy) (i : ℕ) (e : Enemy)
    (hcool : ¬ now - lastShot < REPULSOR_COOLDOWN_MS)
    (hhit : nearestHit enemies = some i) (hget : enemies[i]? = some e)
    (hids : (enemies.map Enemy.id).Nodup) :
    (100 < e.hp →
      (fireRepulsor now lastShot nearestHit st enemies).enemies
          = enemies.set i { e with hp := e.hp - 100 } ∧
      (fireRepulsor now lastShot nearestHit st enemies).state = st) ∧
    (e.hp = 100 →
      (fireRepulsor now lastShot nearestHit st enemies).enemies
          = enemies.eraseIdx i ∧
      (fireRepulsor now lastShot nearestHit st enemies).state.score
          = st.score + 10 ∧
      (fireRepulsor now lastShot nearestHit st enemies).events.countP
          isDestroyEvent = 1 ∧
      (∀ now2 ls2 st2 pts, Event.destroyed e.id pts ∉
          (fireRepulsor now2 ls2 nh2 st2
            (fireRepulsor now lastShot nearestHit st enemies).enemies).events) ∧
      (∀ j e2,
        nh2 (fireRepulsor now lastShot nearestHit st enemies).enemies
            = some j →
        (fireRepulsor now lastShot nearestHit st enemies).enemies[j]?
            = some e2 →
        e2.id ≠ e.id)) := by
  constructor
  · intro hhp
    have hlive : ¬ e.hp - 100 ≤ 0 := by omega
    simp [fireRepulsor, hcool, hhit, hget, hlive]
  · intro hhp
    have hkill : e.hp - 100 ≤ 0 := by omega
    have hres : fireRepulsor now lastShot nearestHit st enemies
        = ⟨{ st with score := st.score + 10 }, enemies.eraseIdx i, now,
            [Event.soundShoot, Event.visualBeam, Event.damageText 100 false,
              Event.soundHit, Event.explosion, Event.destroyed e.id 10]⟩ := by
      simp [fireRepulsor, hcool, hhit, hget, hkill, destroyEnemy]
    have hnotin : e.id ∉ (enemies.eraseIdx i).map Enemy.id :=
      id_not_mem_map_eraseIdx enemies i e hget hids
    refine ⟨by rw [hres], by rw [hres],
      by rw [hres]; simp [isDestroyEvent], ?_, ?_⟩
    · intro now2 ls2 st2 pts hmem
      rw [hres] at hmem
      exact hnotin
        (fireRepulsor_destroyed_id_mem now2 ls2 nh2 st2 _ _ _ hmem)
    · intro j e2 hj hget2 hEq
      rw [hres] at hget2
      exact hnotin
        (hEq ▸ List.mem_map_of_mem Enemy.id (List.getElem?_mem hget2))

/-- Witness for C4: a 100 HP enemy hit at index 0 dies on the first shot,
10 points are awarded, one destroy event fires, and a second shot a second
later cannot destroy it again. -/
theorem repulsor_one_shot_kill_witness :
    (fireRepulsor 1000 0 (fun _ => some 0) ⟨Status.playing, 100, 0, 1, 5⟩
        [wNear, wNear2]).enemies = [wNear2] ∧
    (fireRepulsor 1000 0 (fun _ => some 0) ⟨Status.playing, 100, 0, 1, 5⟩
        [wNear, wNear2]).state.score = 10 ∧
    (fireRepulsor 1000 0 (fun _ => some 0) ⟨Status.playing, 100, 0, 1, 5⟩
        [wNear, wNear2]).events.countP isDestroyEvent = 1 ∧
    Event.destroyed wNear.id 10 ∉
      (fireRepulsor 2000 1000 (fun _ => some 0)
        (fireRepulsor 1000 0 (fun _ => some 0)
          ⟨Status.playing, 100, 0, 1, 5⟩ [wNear, wNear2]).state
        (fireRepulsor 1000 0 (fun _ => some 0)
          ⟨Status.playing, 100, 0, 1, 5⟩ [wNear, wNear2]).enemies).events := by
  have h := repulsor_one_shot_kill 1000 0 (fun _ => some 0)
    (fun _ => some 0) ⟨Status.playing, 100, 0, 1, 5⟩ [wNear, wNear2] 0 wNear
    (by decide) rfl rfl (by decide)
  have h2 := h.2 rfl
  exact ⟨by rw [h2.1]; rfl, h2.2.1, h2.2.2.1,
    h2.2.2.2.1 2000 1000 _ 10⟩

/-- Claim C5: the repulsor is rate limited to one activation per 200 ms:
an accepted activation at time t1 records t1 as the last-fire timestamp,
and a second activation strictly less than 200 ms later has zero effect:
state, live list and timestamp are unchanged and no event at all (no
damage, no visual beam, no sound) is emitted, with nothing queued. -/
theorem repulsor_cooldown_noop (t1 t2 ls : ℤ)
    (nh1 nh2 : List Enemy → Option ℕ) (st : GameState)
    (enemies : List Enemy) (hacc : ¬ t1 - ls < REPULSOR_COOLDOWN_MS)
    (hfast : t2 - t1 < 200) :
    (fireRepulsor t1 ls nh1 st enemies).lastShotTime = t1 ∧
    fireRepulsor t2 (fireRepulsor t1 ls nh1 st enemies).lastShotTime nh2
        (fireRepulsor t1 ls nh1 st enemies).state
        (fireRepulsor t1 ls nh1 st enemies).enemies
      = ⟨(fireRepulsor t1 ls nh1 st enemies).state,
          (fireRepulsor t1 ls nh1 st enemies).enemies,
          (fireRepulsor t1 ls nh1 st enemies).lastShotTime, []⟩ := by
  have hlast : (fireRepulsor t1 ls nh1 st enemies).lastShotTime = t1 := by
    unfold fireRepulsor
    rw [if_neg hacc]
    split
    · rfl
    · split
      · rfl
      · split
        · rfl
        · rfl
  refine ⟨hlast, ?_⟩
  rw [hlast]
  unfold fireRepulsor
  rw [if_pos (by simpa [REPULSOR_COOLDOWN_MS] using hfast)]

/-- Witness for C5: a shot at t = 1000 is accepted, a second at t = 1100
is a complete no-op. -/
theorem repulsor_cooldown_noop_witness :
    (fireRepulsor 1000 0 (fun _ => none) ⟨Status.playing, 100, 0, 1, 5⟩
        []).lastShotTime = 1000 ∧
    fireRepulsor 1100
        (fireRepulsor 1000 0 (fun _ => none) ⟨Status.playing, 100, 0, 1, 5⟩
          []).lastShotTime (fun _ => none)
        (fireRepulsor 1000 0 (fun _ => none) ⟨Status.playing, 100, 0, 1, 5⟩
          []).state
        (fireRepulsor 1000 0 (fun _ => none) ⟨Status.playing, 100, 0, 1, 5⟩
          []).enemies
      = ⟨(fireRepulsor 1000 0 (fun _ => none) ⟨Status.playing, 100, 0, 1, 5⟩
            []).state,
          (fireRepulsor 1000 0 (fun _ => none) ⟨Status.playing, 100, 0, 1, 5⟩
            []).enemies,
          (fireRepulsor 1000 0 (fun _ => none) ⟨Status.playing, 100, 0, 1, 5⟩
            []).lastShotTime, []⟩ :=
  repulsor_cooldown_noop 1000 1100 0 (fun _ => none) (fun _ => none)
    ⟨Status.playing, 100, 0, 1, 5⟩ [] (by decide) (by decide)

/-- Helper: characterisation of the box collision test (strict comparison
on every axis). -/
theorem collides_iff (pX pZ : ℚ) (ePos : Vec3) :
    collides pX pZ ePos = true ↔
      (|ePos.x - pX| < pWidth + hitRadius ∧
        |ePos.z - pZ| < pDepth + hitRadius ∧
        ePos.y < pHeight + hitRadius ∧ ePos.y > -hitRadius) := by
  simp [collides, and_assoc]

/-- Helper: the collision updater never changes the score. -/
theorem applyCollisionDamage_score (st : GameState) :
    (applyCollisionDamage st).1.score = st.score := by
  simp only [applyCollisionDamage]
  split <;> rfl

/-- Helper: health after the collision updater is the clamped 20-damage
decrement. -/
theorem applyCollisionDamage_health (st : GameState) :
    (applyCollisionDamage st).1.health
      = if st.health - 20 ≤ 0 then 0 else st.health - 20 := by
  simp only [applyCollisionDamage]
  split
  · rename_i h
    simp [h]
  · rename_i h
    simp [h]

/-- Helper: the low_hp sound is emitted by the collision updater exactly
when the new health value lies in (0, 20]. -/
theorem lowHp_mem_iff (st : GameState) :
    Event.soundLowHp ∈ (applyCollisionDamage st).2 ↔
      (st.health - 20 ≤ 20 ∧ 0 < st.health - 20) := by
  by_cases h1 : st.health - 20 ≤ 0
  · have h3 : ¬ 0 < st.health - 20 := by omega
    simp [applyCollisionDamage, h1, h3]
  · by_cases h2 : st.health - 20 ≤ 20
    · have h3 : 0 < st.health - 20 := by omega
      simp [applyCollisionDamage, h1, h2, h3]
    · simp [applyCollisionDamage, h1, h2]

/-- Claim C7: the enemy-vs-player collision check is boundary-exclusive on
every axis: the test holds exactly when the enemy is strictly inside the
expanded box on all three axes, an enemy exactly at a boundary value on
any axis does not collide, and a colliding enemy is destroyed with zero
points while the player takes a flat 20 damage. -/
theorem player_collision_boundary_exclusive :
    (∀ (pX pZ : ℚ) (ePos : Vec3),
      collides pX pZ ePos = true ↔
        (|ePos.x - pX| < pWidth + hitRadius ∧
          |ePos.z - pZ| < pDepth + hitRadius ∧
          ePos.y < pHeight + hitRadius ∧ ePos.y > -hitRadius)) ∧
    (∀ (pX pZ : ℚ) (ePos : Vec3),
      |ePos.x - pX| = pWidth + hitRadius → collides pX pZ ePos = false) ∧
    (∀ (pX pZ : ℚ) (ePos : Vec3),
      |ePos.z - pZ| = pDepth + hitRadius → collides pX pZ ePos = false) ∧
    (∀ (pX pZ : ℚ) (ePos : Vec3),
      ePos.y = pHeight + hitRadius → collides pX pZ ePos = false) ∧
    (∀ (pX pZ : ℚ) (ePos : Vec3),
      ePos.y = -hitRadius → collides pX pZ ePos = false) ∧
    (∀ (cam : Vec3) (st : GameState) (enemies : List Enemy) (i : ℕ)
        (e : Enemy), enemies[i]? = some e →
      collides cam.x cam.z e.pos = true →
      (enemyCollisionStep cam st enemies i).1.score = st.score ∧
      (enemyCollisionStep cam st enemies i).1.health
          = (if st.health - 20 ≤ 0 then 0 else st.health - 20) ∧
      (enemyCollisionStep cam st enemies i).2.1 = enemies.eraseIdx i ∧
      Event.destroyed e.id 0 ∈ (enemyCollisionStep cam st enemies i).2.2) := by
  refine ⟨collides_iff, ?_, ?_, ?_, ?_, ?_⟩
  · intro pX pZ ePos h
    rw [Bool.eq_false_iff]
    intro hc
    exact absurd ((collides_iff pX pZ ePos).mp hc).1
      (by rw [h]; exact lt_irrefl _)
  · intro pX pZ ePos h
    rw [Bool.eq_false_iff]
    intro hc
    exact absurd ((collides_iff pX pZ ePos).mp hc).2.1
      (by rw [h]; exact lt_irrefl _)
  · intro pX pZ ePos h
    rw [Bool.eq_false_iff]
    intro hc
    exact absurd ((collides_iff pX pZ ePos).mp hc).2.2.1
      (by rw [h]; exact lt_irrefl _)
  · intro pX pZ ePos h
    rw [Bool.eq_false_iff]
    intro hc
    exact absurd ((collides_iff pX pZ ePos).mp hc).2.2.2
      (by rw [h]; exact lt_irrefl _)
  · intro cam st enemies i e hget hc
    have hscore : (enemyCollisionStep cam st enemies i).1.score
        = st.score := by
      simp [enemyCollisionStep, hget, hc, destroyEnemy,
        applyCollisionDamage_score]
    have hhealth : (enemyCollisionStep cam st enemies i).1.health
        = (if st.health - 20 ≤ 0 then 0 else st.health - 20) := by
      simp [enemyCollisionStep, hget, hc, destroyEnemy,
        applyCollisionDamage_health]
    have henemies : (enemyCollisionStep cam st enemies i).2.1
        = enemies.eraseIdx i := by
      simp [enemyCollisionStep, hget, hc, destroyEnemy]
    have hmem : Event.destroyed e.id 0
        ∈ (enemyCollisionStep cam st enemies i).2.2 := by
      simp [enemyCollisionStep, hget, hc, destroyEnemy]
    exact ⟨hscore, hhealth, henemies, hmem⟩

/-- Witness for C7: with the player column at the origin, an enemy exactly
at the x boundary (pWidth + hitRadius = 2) does not collide, while an
enemy strictly inside on all axes does. -/
theorem player_collision_boundary_exclusive_witness :
    collides 0 0 ⟨2, 1, 0⟩ = false ∧ collides 0 0 ⟨1, 1, 0⟩ = true := by
  constructor
  · refine player_collision_boundary_exclusive.2.1 0 0 ⟨2, 1, 0⟩ ?_
    rw [show (2:ℚ) - 0 = 2 by norm_num, abs_of_nonneg (by norm_num)]
    norm_num [pWidth, hitRadius]
  · refine (player_collision_boundary_exclusive.1 0 0 ⟨1, 1, 0⟩).mpr ?_
    norm_num [abs_sub_lt_iff, pWidth, pDepth, pHeight, hitRadius]

/-- Claim C9: the low_hp trigger fires exactly on the collision transition
whose new health value lies in (0, 20]: every such transition emits it,
every emission comes from a state strictly above 20 health (a crossing
from above), no collision from a state already at or below 20 emits it, no
transition to nonpositive health emits it, and once it has fired no later
chain of collisions can fire it again within the same life. -/
theorem low_hp_crossing_trigger (s : GameState) :
    (Event.soundLowHp ∈ (applyCollisionDamage s).2 ↔
      (s.health - 20 ≤ 20 ∧ 0 < s.health - 20)) ∧
    (Event.soundLowHp ∈ (applyCollisionDamage s).2 → 20 < s.health) ∧
    (s.health ≤ 20 → Event.soundLowHp ∉ (applyCollisionDamage s).2) ∧
    (s.health - 20 ≤ 0 → Event.soundLowHp ∉ (applyCollisionDamage s).2) ∧
    (Event.soundLowHp ∈ (applyCollisionDamage s).2 → ∀ n : ℕ,
      Event.soundLowHp ∉
        (applyCollisionDamage (collideN n (applyCollisionDamage s).1)).2) := by
  have hiff := lowHp_mem_iff s
  have hpres : ∀ (m : ℕ) (t : GameState), t.health ≤ 20 →
      (collideN m t).health ≤ 20 := by
    intro m
    induction m with
    | zero => intro t ht; exact ht
    | succ k ih =>
      intro t ht
      have hstep : (applyCollisionDamage t).1.health ≤ 20 := by
        rw [applyCollisionDamage_health]
        split <;> omega
      simpa only [collideN] using ih _ hstep
  refine ⟨hiff, ?_, ?_, ?_, ?_⟩
  · intro h
    have := hiff.mp h
    omega
  · intro hle h
    have := hiff.mp h
    omega
  · intro hle h
    have := hiff.mp h
    omega
  · intro h n hmem
    have hh := hiff.mp h
    have h1 : (applyCollisionDamage s).1.health ≤ 20 := by
      rw [applyCollisionDamage_health]
      split <;> omega
    have h2 := hpres n _ h1
    have := (lowHp_mem_iff _).mp hmem
    omega

/-- Witness for C9: the crossing collision from 40 health emits low_hp,
the collision from 20 health (dropping to 0) does not, and the collision
from 100 health (landing at 80) does not. -/
theorem low_hp_crossing_trigger_witness :
    Event.soundLowHp
        ∈ (applyCollisionDamage ⟨Status.playing, 40, 0, 1, 5⟩).2 ∧
    Event.soundLowHp
        ∉ (applyCollisionDamage ⟨Status.playing, 20, 0, 1, 5⟩).2 ∧
    Event.soundLowHp
        ∉ (applyCollisionDamage ⟨Status.playing, 100, 0, 1, 5⟩).2 :=
  ⟨(low_hp_crossing_trigger ⟨Status.playing, 40, 0, 1, 5⟩).1.mpr
      (by decide),
    (low_hp_crossing_trigger ⟨Status.playing, 20, 0, 1, 5⟩).2.2.1
      (by decide),
    fun h => absurd
      ((low_hp_crossing_trigger ⟨Status.playing, 100, 0, 1, 5⟩).1.mp h)
      (by decide)⟩

/-- Claim C6 (code bug): the collision updater has no status guard, so
after the first collision of a tick has driven health to 0 and the status
to gameover, a second collision resolved in the same tick runs the updater
on the game-over state (new health -20 ≤ 0) and submits the score a second
time: two submission events per life, where the claim and the
specification require exactly one. -/
theorem double_score_submission_bug :
    (applyCollisionDamage ⟨Status.playing, 20, 120, 1, 5⟩).1
        = ⟨Status.gameover, 0, 120, 1, 5⟩ ∧
    (applyCollisionDamage ⟨Status.playing, 20, 120, 1, 5⟩).2.countP
        isScoreSubmitEvent = 1 ∧
    ((applyCollisionDamage ⟨Status.playing, 20, 120, 1, 5⟩).2 ++
        (applyCollisionDamage
          (applyCollisionDamage ⟨Status.playing, 20, 120, 1, 5⟩).1).2).countP
        isScoreSubmitEvent = 2 := by
  refine ⟨by decide, by decide, by decide⟩

/-- Helper: every operation preserves the scalar bounds. -/
theorem step_preserves_bounds {s t : GameState} (hb : StateBounds s)
    (hst : Step s t) : StateBounds t := by
  obtain ⟨h1, h2, h3, h4, h5⟩ := hb
  have hM : MAX_BEAM_CHARGES = 5 := rfl
  cases hst with
  | start h =>
    exact ⟨by decide, by decide, by decide, by decide, by decide⟩
  | destroy points hp =>
    refine ⟨h1, h2, h3, h4, ?_⟩
    simp only [applyScore]
    rcases hp with rfl | rfl <;> omega
  | unibeam aim cam enemies =>
    unfold triggerUnibeam
    split
    · exact ⟨h1, h2, h3, h4, h5⟩
    · rename_i hc
      have hpos : (0:ℤ)
          ≤ ((enemies.filter (inBeamRadius cam)).length : ℤ) * 50 :=
        mul_nonneg (Int.natCast_nonneg _) (by norm_num)
      exact ⟨h1, h2, by dsimp only; omega, by dsimp only; omega,
        by dsimp only; omega⟩
  | collide =>
    simp only [applyCollisionDamage]
    split <;>
      exact ⟨by dsimp only; omega, by dsimp only; omega, h3, h4, h5⟩
  | regen hp hc =>
    refine ⟨h1, h2, ?_, ?_, h5⟩ <;> simp only [applyRegen] <;> omega
  | wave hp => exact ⟨h1, h2, h3, h4, h5⟩

/-- Claim C3 (amended): for every reachable state the scalar bounds hold
(0 ≤ health ≤ 100, 0 ≤ beamCharges ≤ MAX_BEAM_CHARGES, 0 ≤ score), and
every operation except the startGame reset leaves the score non
decreasing.  The original claim, that no operation ever decreases the
score, fails at the startGame reset (see the counterexample). -/
theorem state_bounds_and_score_monotone :
    (∀ s : GameState, Reachable s → StateBounds s) ∧
    (∀ s t : GameState, Step s t → t = startGame ∨ s.score ≤ t.score) := by
  constructor
  · intro s h
    induction h with
    | refl =>
      exact ⟨by decide, by decide, by decide, by decide, by decide⟩
    | tail hab hbc ih => exact step_preserves_bounds ih hbc
  · intro s t hst
    cases hst with
    | start h => exact Or.inl rfl
    | destroy points hp =>
      refine Or.inr ?_
      simp only [applyScore]
      rcases hp with rfl | rfl <;> omega
    | unibeam aim cam enemies =>
      refine Or.inr ?_
      unfold triggerUnibeam
      split
      · exact le_refl _
      · dsimp only
        have hpos : (0:ℤ)
            ≤ ((enemies.filter (inBeamRadius cam)).length : ℤ) * 50 :=
          mul_nonneg (Int.natCast_nonneg _) (by norm_num)
        omega
    | collide =>
      refine Or.inr ?_
      simp only [applyCollisionDamage]
      split <;> exact le_refl _
    | regen hp hc => exact Or.inr (le_refl _)
    | wave hp => exact Or.inr (le_refl _)

/-- Witness for the amended C3: the initial state is reachable and
satisfies the bounds. -/
theorem state_bounds_and_score_monotone_witness : StateBounds initialState :=
  state_bounds_and_score_monotone.1 initialState Relation.ReflTransGen.refl

/-- Helper: extend a reachability chain by one step whose target evaluates
to the given literal state. -/
theorem reachable_step {s u t : GameState} (h : Reachable s) (hs : Step s u)
    (he : u = t) : Reachable t :=
  he ▸ Relation.ReflTransGen.tail h hs

/-- Claim C3 counterexample: the claim says no operation ever decreases
the score, but the startGame handler does: the state with 10 points after
a finished life is reachable, startGame steps from it, and the score drops
from 10 to 0. -/
theorem score_reset_counterexample :
    Reachable ⟨Status.gameover, 0, 10, 1, 5⟩ ∧
    Step ⟨Status.gameover, 0, 10, 1, 5⟩ startGame ∧
    startGame.score < (GameState.mk Status.gameover 0 10 1 5).score := by
  have r0 : Reachable initialState := Relation.ReflTransGen.refl
  have r1 : Reachable startGame :=
    reachable_step r0 (Step.start initialState (by decide)) rfl
  have r2 : Reachable ⟨Status.playing, 100, 10, 1, 5⟩ :=
    reachable_step r1 (Step.destroy startGame 10 (Or.inr rfl)) (by decide)
  have r3 : Reachable ⟨Status.playing, 80, 10, 1, 5⟩ :=
    reachable_step r2 (Step.collide _) (by decide)
  have r4 : Reachable ⟨Status.playing, 60, 10, 1, 5⟩ :=
    reachable_step r3 (Step.collide _) (by decide)
  have r5 : Reachable ⟨Status.playing, 40, 10, 1, 5⟩ :=
    reachable_step r4 (Step.collide _) (by decide)
  have r6 : Reachable ⟨Status.playing, 20, 10, 1, 5⟩ :=
    reachable_step r5 (Step.collide _) (by decide)
  have r7 : Reachable ⟨Status.gameover, 0, 10, 1, 5⟩ :=
    reachable_step r6 (Step.collide _) (by decide)
  exact ⟨r7, Step.start _ (by decide), by decide⟩

end StarkSim
